import Mathlib

/-!
# Team-Formation & Access-Governance Engine: a verified shallow embedding

This file embeds the governance core of the `kiro_team_matching` repository
(ProjectMate AI).  The repository snapshot ships the React frontend
(`frontend/src/api/projects.ts`, `frontend/src/api/auth.ts`,
`frontend/src/contexts/AuthContext.tsx`, `frontend/src/pages/RegisterPage.tsx`)
together with the backend's README; the FastAPI backend that implements the
governance rules (application workflow, recruitment state machine, penalty
ledger, quota meter, governance facade) is not part of the snapshot — only its
type declarations and HTTP callers are.  Those backend components are therefore
modelled from the specification, each such definition carrying a doc comment
starting with `Modelled from the spec:`.  The frontend logic (registration form
transformation, logout) is translated directly from the TypeScript source.

Timestamps are logical `Nat` values, matching the spec's demand that the core
never reads a system clock.
-/

/-- Recruitment lifecycle status of a project
(`Project.recruitment_status` in `frontend/src/api/projects.ts`). -/
inductive RecruitStatus
  | OPEN
  | IN_PROGRESS
  | CLOSED
  | FINISHED
deriving DecidableEq, Repr

/-- Status of a single application
(`ProjectApplication.status` in `frontend/src/api/projects.ts`). -/
inductive AppStatus
  | PENDING
  | ACCEPTED
  | REJECTED
deriving DecidableEq, Repr

/-- The error taxonomy of the governance core (spec §7).  `NotFound` is an
extra programmer-error case used when an operation is invoked with an
application id that does not exist in the snapshot; §7 classifies malformed
snapshots as programmer errors outside the denial taxonomy. -/
inductive GovError
  | UserPenalized
  | QuotaExceeded
  | DuplicatePending
  | ProjectNotOpen
  | RecruitmentClosedForRole
  | AlreadyFinalized
  | InvalidRole
  | NotFound
deriving DecidableEq, Repr

/-- Role-label-to-headcount mappings (`positions_needed`, `positions_filled`)
are association lists from role labels to counts. -/
abbrev RoleMap := List (String × Nat)

/-- Look a role up in a role map, defaulting to 0 for absent keys. -/
def lookupD (l : RoleMap) (r : String) : Nat :=
  match l.lookup r with
  | some n => n
  | none => 0

/-- Set the value of a role in a role map (replace if present, append if
absent). -/
def setRole (l : RoleMap) (r : String) (v : Nat) : RoleMap :=
  match l with
  | [] => [(r, v)]
  | (k, n) :: t => if k = r then (r, v) :: t else (k, n) :: setRole t r v

/-- Project-Recruitment-State (spec §3; field names from the `Project`
interface in `frontend/src/api/projects.ts`). -/
structure Project where
  leader_id : String
  status : RecruitStatus
  positions_needed : RoleMap
  positions_filled : RoleMap
deriving DecidableEq, Repr

/-- Required headcount for a role. -/
def neededOf (p : Project) (r : String) : Nat :=
  lookupD p.positions_needed r

/-- Current headcount for a role. -/
def filledOf (p : Project) (r : String) : Nat :=
  lookupD p.positions_filled r

/-- Modelled from the spec: every role of `positions_needed` has
`positions_filled == positions_needed` (the trigger of the automatic
OPEN → IN_PROGRESS transition, spec §4.3).  The backend implementation is
absent from the snapshot. -/
def allRolesFilled (p : Project) : Bool :=
  p.positions_needed.all (fun rn => filledOf p rn.1 == rn.2)

/-- Modelled from the spec: `canAcceptApplication(project, role)` — true iff
status ∈ \x7bOPEN, IN_PROGRESS\x7d and `filled(role) < needed(role)` (spec
§4.3).  The backend implementation is absent from the snapshot. -/
def canAcceptApplication (p : Project) (role : String) : Bool :=
  (p.status == .OPEN || p.status == .IN_PROGRESS)
    && decide (filledOf p role < neededOf p role)

/-- Modelled from the spec: `applyMembership(project, role, delta)` recomputes
`positions_filled` and re-derives `status` per the automatic
OPEN → IN_PROGRESS rule; fails with `InvalidRole` if `role` is not a key of
`positions_needed` (spec §4.3).  The backend implementation is absent from the
snapshot. -/
def applyMembership (p : Project) (role : String) (delta : Int) : Except GovError Project :=
  match p.positions_needed.lookup role with
  | none => .error .InvalidRole
  | some _ =>
    let p' : Project :=
      { p with positions_filled :=
          setRole p.positions_filled role (((filledOf p role : Int) + delta).toNat) }
    .ok { p' with status :=
            if p.status == .OPEN && allRolesFilled p' then .IN_PROGRESS else p.status }

/-- User-Governance-State (spec §3; fields `no_show_count` and `penalty_until`
appear on the user object of `AuthResponse` in `frontend/src/api/auth.ts`). -/
structure UserGov where
  no_show_count : Nat
  penalty_until : Option Nat
deriving DecidableEq, Repr

/-- Externally supplied configuration (README: `MAX_NO_SHOW_COUNT`,
`PENALTY_DURATION_DAYS`, `PORTFOLIO_GENERATION_LIMIT`). -/
structure GovConfig where
  noShowThreshold : Nat
  penaltyDuration : Nat
deriving DecidableEq, Repr

/-- Modelled from the spec: `isPenalized(state, now)` — true iff
`penalty_until` is present and `now < penalty_until` (spec §4.1).  The backend
implementation is absent from the snapshot. -/
def isPenalized (u : UserGov) (now : Nat) : Bool :=
  match u.penalty_until with
  | some t => decide (now < t)
  | none => false

/-- Modelled from the spec: `recordNoShow(state, now)` — increments
`no_show_count`; if the new count is a multiple of the configured no-show
threshold, sets `penalty_until = now + penalty_duration` (spec §4.1).  The
backend implementation is absent from the snapshot. -/
def recordNoShow (cfg : GovConfig) (u : UserGov) (now : Nat) : UserGov :=
  let c := u.no_show_count + 1
  { no_show_count := c,
    penalty_until :=
      if c % cfg.noShowThreshold = 0 then some (now + cfg.penaltyDuration)
      else u.penalty_until }

/-- The user-governance states reachable from a fresh user (zero no-shows, no
penalty) by recording no-show events. -/
inductive UserReachable (cfg : GovConfig) : UserGov → Prop
  | init : UserReachable cfg { no_show_count := 0, penalty_until := none }
  | step (u : UserGov) (now : Nat) :
      UserReachable cfg u → UserReachable cfg (recordNoShow cfg u now)

/-- Usage-Counter (spec §3): per-(user, feature) consumption count. -/
structure UsageCounter where
  count : Nat
deriving DecidableEq, Repr

/-- Modelled from the spec: `tryConsume(counter, limit, now)` — if
`counter.count < limit`, returns allowed=true and the counter with count+1;
otherwise allowed=false and the counter unchanged (spec §4.2).  The backend
implementation is absent from the snapshot. -/
def tryConsume (c : UsageCounter) (limit : Nat) (_now : Nat) : Bool × UsageCounter :=
  if c.count < limit then (true, { count := c.count + 1 }) else (false, c)

/-- Application record (spec §3; the `ProjectApplication` interface in
`frontend/src/api/projects.ts`).  The project reference is implicit: a
`CoreState` models one project together with its applications. -/
structure Application where
  id : Nat
  user_id : String
  applied_position : String
  status : AppStatus
deriving DecidableEq, Repr

/-- Team-Membership record (spec §3; the `TeamMember` interface in
`frontend/src/api/projects.ts`). -/
structure TeamMember where
  user_id : String
  role_in_project : String
deriving DecidableEq, Repr

/-- The state of one project's governance core: the recruitment state, the
application records, the active team memberships, and the next fresh
application id. -/
structure CoreState where
  project : Project
  apps : List Application
  members : List TeamMember
  nextId : Nat
deriving DecidableEq, Repr

/-- Find the application with a given id. -/
def findApp (s : CoreState) (i : Nat) : Option Application :=
  s.apps.find? (fun a => a.id == i)

/-- Does this application record count as a PENDING application of `uid`? -/
def pendingFor (uid : String) (a : Application) : Bool :=
  a.user_id == uid && a.status == AppStatus.PENDING

/-- Is there a PENDING application of `uid` for this project? -/
def hasPendingFor (s : CoreState) (uid : String) : Bool :=
  s.apps.any (pendingFor uid)

/-- Number of PENDING applications of `uid` for this project. -/
def pendingCount (s : CoreState) (uid : String) : Nat :=
  s.apps.countP (pendingFor uid)

/-- Modelled from the spec: Submit (create PENDING) — fails with
`DuplicatePending` if a PENDING application already exists for
(project, user); fails with `UserPenalized` if the Penalty Ledger reports the
applicant penalized; fails with `ProjectNotOpen` if recruitment state is
CLOSED/FINISHED (spec §4.4).  The backend implementation is absent from the
snapshot. -/
def submitApp (s : CoreState) (u : UserGov) (uid role : String) (now : Nat) :
    Except GovError CoreState :=
  if hasPendingFor s uid then .error .DuplicatePending
  else if isPenalized u now then .error .UserPenalized
  else if s.project.status == .CLOSED || s.project.status == .FINISHED then
    .error .ProjectNotOpen
  else
    .ok { s with
          apps := s.apps ++
            [{ id := s.nextId, user_id := uid, applied_position := role,
               status := .PENDING }],
          nextId := s.nextId + 1 }

/-- Modelled from the spec: Accept (PENDING → ACCEPTED) — any attempt to
transition a non-PENDING application fails with `AlreadyFinalized`; fails with
`RecruitmentClosedForRole` if `canAcceptApplication` is false for the requested
role, re-checked at accept time; on success creates the Team-Membership and
invokes `applyMembership(+1)` atomically with the status flip (spec §4.4).
The backend implementation is absent from the snapshot. -/
def acceptApp (s : CoreState) (i : Nat) : Except GovError CoreState :=
  match findApp s i with
  | none => .error .NotFound
  | some a =>
    if a.status = AppStatus.PENDING then
      if canAcceptApplication s.project a.applied_position then
        match applyMembership s.project a.applied_position 1 with
        | .error e => .error e
        | .ok p' =>
          .ok { project := p',
                apps := s.apps.map
                  (fun b => if b.id = i then { b with status := .ACCEPTED } else b),
                members := s.members ++
                  [{ user_id := a.user_id, role_in_project := a.applied_position }],
                nextId := s.nextId }
      else .error .RecruitmentClosedForRole
    else .error .AlreadyFinalized

/-- Modelled from the spec: Reject (PENDING → REJECTED) — no side effects
beyond the status flip; a non-PENDING application fails with
`AlreadyFinalized` (spec §4.4).  The backend implementation is absent from the
snapshot. -/
def rejectApp (s : CoreState) (i : Nat) : Except GovError CoreState :=
  match findApp s i with
  | none => .error .NotFound
  | some a =>
    if a.status = AppStatus.PENDING then
      .ok { s with
            apps := s.apps.map
              (fun b => if b.id = i then { b with status := .REJECTED } else b) }
    else .error .AlreadyFinalized

/-- Modelled from the spec: the accept transaction as seen by the caller —
"both succeed or both are rolled back" (spec §4.4, §9).  On success the caller
persists the new state; on any denial the state is left exactly as it was.
The backend implementation is absent from the snapshot. -/
def acceptAppRun (s : CoreState) (i : Nat) : CoreState × Option GovError :=
  match acceptApp s i with
  | .ok s' => (s', none)
  | .error e => (s, some e)

/-- Modelled from the spec: the reject transaction as seen by the caller; on a
denial the state is left exactly as it was (spec §4.4).  The backend
implementation is absent from the snapshot. -/
def rejectAppRun (s : CoreState) (i : Nat) : CoreState × Option GovError :=
  match rejectApp s i with
  | .ok s' => (s', none)
  | .error e => (s, some e)

/-- The ambient world an implementation could observe besides its arguments: a
system clock and other external inputs.  The facade is required by the spec
never to consult it. -/
structure Ambient where
  sysClock : Nat
  externalInput : List String
deriving DecidableEq, Repr

/-- Modelled from the spec: facade `canApply(user, project, role, now)` —
denies with `UserPenalized` if the Penalty Ledger says so; else delegates to
the Application Workflow's submit guards (spec §4.5).  Takes the ambient world
explicitly; the spec mandates it be ignored.  The backend implementation is
absent from the snapshot. -/
def canApply (_amb : Ambient) (u : UserGov) (s : CoreState) (uid role : String)
    (now : Nat) : Except GovError CoreState :=
  if isPenalized u now then .error .UserPenalized
  else submitApp s u uid role now

/-- Modelled from the spec: facade `canAccept(project, application, now)` —
delegates to the Application Workflow's accept guard (spec §4.5).  The backend
implementation is absent from the snapshot. -/
def canAccept (_amb : Ambient) (s : CoreState) (i : Nat) (_now : Nat) :
    Except GovError CoreState :=
  acceptApp s i

/-- Modelled from the spec: facade `canUseFeature(user, feature, now)` —
denies with `QuotaExceeded` if the Quota Meter would refuse; allowed responses
carry the updated counter (spec §4.5).  The backend implementation is absent
from the snapshot. -/
def canUseFeature (_amb : Ambient) (c : UsageCounter) (limit : Nat) (now : Nat) :
    Except GovError UsageCounter :=
  match tryConsume c limit now with
  | (true, c') => .ok c'
  | (false, _) => .error .QuotaExceeded

/-- An initial core state: a freshly published project with no filled
positions, no applications and no members. -/
def InitState (s : CoreState) : Prop :=
  s.project.positions_filled = [] ∧ s.apps = [] ∧ s.members = []

/-- One transition of the core, taking every operation named by the spec —
submit, accept, reject, and a raw `applyMembership` call — as a step. -/
inductive StepFull : CoreState → CoreState → Prop
  | submit (u : UserGov) (uid role : String) (now : Nat) (s s' : CoreState) :
      submitApp s u uid role now = .ok s' → StepFull s s'
  | accept (i : Nat) (s s' : CoreState) :
      acceptApp s i = .ok s' → StepFull s s'
  | reject (i : Nat) (s s' : CoreState) :
      rejectApp s i = .ok s' → StepFull s s'
  | member (role : String) (delta : Int) (s : CoreState) (p' : Project) :
      applyMembership s.project role delta = .ok p' →
      StepFull s { s with project := p' }

/-- One transition of the workflow: submit, accept or reject
(`applyMembership` occurs only inside accept, under its capacity guard). -/
inductive StepW : CoreState → CoreState → Prop
  | submit (u : UserGov) (uid role : String) (now : Nat) (s s' : CoreState) :
      submitApp s u uid role now = .ok s' → StepW s s'
  | accept (i : Nat) (s s' : CoreState) :
      acceptApp s i = .ok s' → StepW s s'
  | reject (i : Nat) (s s' : CoreState) :
      rejectApp s i = .ok s' → StepW s s'

/-- States reachable from an initial state by `StepFull` transitions. -/
inductive ReachableFull : CoreState → Prop
  | init (s : CoreState) : InitState s → ReachableFull s
  | step (s s' : CoreState) : ReachableFull s → StepFull s s' → ReachableFull s'

/-- States reachable from an initial state by workflow transitions. -/
inductive ReachableW : CoreState → Prop
  | init (s : CoreState) : InitState s → ReachableW s
  | step (s s' : CoreState) : ReachableW s → StepW s s' → ReachableW s'

/-- The capacity invariant: every role's filled headcount is at most its
needed headcount (spec §3, §8). -/
def CapacityInv (p : Project) : Prop :=
  ∀ r : String, filledOf p r ≤ neededOf p r

/-- The pending-uniqueness invariant: at most one PENDING application per
user for this project (spec §3, §8). -/
def PendingUnique (s : CoreState) : Prop :=
  ∀ uid : String, pendingCount s uid ≤ 1

/-! ## Frontend models, translated directly from the TypeScript source -/

/-- The registration form values of `RegisterFormData` in
`frontend/src/pages/RegisterPage.tsx`.  Optional text inputs are `Option
String` (`undefined` ↦ `none`); JavaScript truthiness additionally treats the
empty string as absent. -/
structure RegisterFormData where
  email : String
  password : String
  confirmPassword : String
  name : String
  role : String
  bio : Option String
  region : Option String
  available_hours_per_week : Option Nat
  domain_knowledge : Option String
  experience_level : String
  project_experience : Option String
  tech_stack : Option String
  preferred_positions : Option String
deriving DecidableEq, Repr

/-- The payload passed to `registerUser` in `RegisterPage.tsx`: every form
field except `confirmPassword`, with `tech_stack` and `preferred_positions`
turned into lists. -/
structure RegisterSubmitData where
  email : String
  password : String
  name : String
  role : String
  bio : Option String
  region : Option String
  available_hours_per_week : Option Nat
  domain_knowledge : Option String
  experience_level : String
  project_experience : Option String
  tech_stack : List String
  preferred_positions : List String
deriving DecidableEq, Repr

/-- `s.split(',').map(s => s.trim())` from `RegisterPage.tsx`. -/
def splitCommaTrim (s : String) : List String :=
  (s.splitOn ",").map (fun x => x.trim)

/-- `data.x ? data.x.split(',').map(s => s.trim()) : []` from
`RegisterPage.tsx`: JavaScript truthiness sends both `undefined` and the empty
string to the empty list. -/
def optSplit (o : Option String) : List String :=
  match o with
  | none => []
  | some s => if s = "" then [] else splitCommaTrim s

/-- The body of `onSubmit` in `RegisterPage.tsx` up to the `registerUser`
call: spread the form data, replace `tech_stack` and `preferred_positions` by
their split-and-trimmed lists, and drop `confirmPassword`. -/
def buildRegisterData (d : RegisterFormData) : RegisterSubmitData :=
  { email := d.email,
    password := d.password,
    name := d.name,
    role := d.role,
    bio := d.bio,
    region := d.region,
    available_hours_per_week := d.available_hours_per_week,
    domain_knowledge := d.domain_knowledge,
    experience_level := d.experience_level,
    project_experience := d.project_experience,
    tech_stack := optSplit d.tech_stack,
    preferred_positions := optSplit d.preferred_positions }

/-- The user object held by `AuthContext` (`frontend/src/contexts/AuthContext.tsx`);
only identity fields matter for the logout model. -/
structure AuthUser where
  id : String
  email : String
  name : String
deriving DecidableEq, Repr

/-- The in-memory React state of `AuthProvider`: the `user` and `token`
`useState` cells. -/
structure AuthContextState where
  user : Option AuthUser
  token : Option String
deriving DecidableEq, Repr

/-- The browser's `localStorage`, as a partial map from keys to stored
strings. -/
def Storage := String → Option String

/-- `localStorage.removeItem(k)`. -/
def removeItem (st : Storage) (k : String) : Storage :=
  fun k' => if k' = k then none else st k'

/-- The `logout` function of `AuthContext.tsx`: set `user` and `token` to
null and remove the `access_token`, `refresh_token` and `user` keys from
`localStorage`. -/
def logout (_a : AuthContextState) (st : Storage) : AuthContextState × Storage :=
  ({ user := none, token := none },
   removeItem (removeItem (removeItem st "access_token") "refresh_token") "user")

/-! ## Concrete example states used to exercise the theorems -/

/-- A freshly published project needing one dev. -/
def cexProj : Project :=
  { leader_id := "leader-1", status := .OPEN,
    positions_needed := [("dev", 1)], positions_filled := [] }

/-- `cexProj` after one membership: full, automatically IN_PROGRESS. -/
def cexProj1 : Project :=
  { leader_id := "leader-1", status := .IN_PROGRESS,
    positions_needed := [("dev", 1)], positions_filled := [("dev", 1)] }

/-- `cexProj1` after a second unguarded `applyMembership(+1)`: the dev role is
over capacity. -/
def cexProj2 : Project :=
  { leader_id := "leader-1", status := .IN_PROGRESS,
    positions_needed := [("dev", 1)], positions_filled := [("dev", 2)] }

/-- An empty initial core state around `cexProj`. -/
def exInitState : CoreState :=
  { project := cexProj, apps := [], members := [], nextId := 0 }

/-- `cexProj` with one pending application by alice. -/
def exOkState : CoreState :=
  { project := cexProj,
    apps := [{ id := 0, user_id := "alice", applied_position := "dev",
               status := .PENDING }],
    members := [], nextId := 1 }

/-- `exOkState` after the leader accepts alice's application. -/
def exOkState' : CoreState :=
  { project := cexProj1,
    apps := [{ id := 0, user_id := "alice", applied_position := "dev",
               status := .ACCEPTED }],
    members := [{ user_id := "alice", role_in_project := "dev" }], nextId := 1 }

/-- A closed project with a still-pending application. -/
def exClosedState : CoreState :=
  { project := { cexProj with status := .CLOSED },
    apps := [{ id := 0, user_id := "alice", applied_position := "dev",
               status := .PENDING }],
    members := [], nextId := 1 }

/-- A state whose only application is already accepted. -/
def exDoneState : CoreState :=
  { project := cexProj1,
    apps := [{ id := 0, user_id := "alice", applied_position := "dev",
               status := .ACCEPTED }],
    members := [{ user_id := "alice", role_in_project := "dev" }], nextId := 1 }

/-! ## Helper lemmas -/

theorem lookupD_nil (r : String) : lookupD [] r = 0 := rfl

theorem lookupD_cons (k : String) (v : Nat) (t : RoleMap) (r : String) :
    lookupD ((k, v) :: t) r = if r = k then v else lookupD t r := by
  by_cases h : r = k
  · subst h
    simp [lookupD, List.lookup]
  · have hb : (r == k) = false := beq_eq_false_iff_ne.mpr h
    simp [lookupD, List.lookup, hb, h]

theorem lookupD_setRole_self (l : RoleMap) (r : String) (v : Nat) :
    lookupD (setRole l r v) r = v := by
  induction l with
  | nil => simp [setRole, lookupD_cons]
  | cons hd t ih =>
    obtain ⟨k, n⟩ := hd
    by_cases h : k = r
    · subst h
      simp [setRole, lookupD_cons]
    · simp [setRole, h, lookupD_cons, Ne.symm h, ih]

theorem lookupD_setRole_other (l : RoleMap) (r r' : String) (v : Nat)
    (h : r' ≠ r) : lookupD (setRole l r v) r' = lookupD l r' := by
  induction l with
  | nil => simp [setRole, lookupD_cons, h, lookupD_nil]
  | cons hd t ih =>
    obtain ⟨k, n⟩ := hd
    by_cases hk : k = r
    · subst hk
      simp [setRole, lookupD_cons, h]
    · by_cases hk' : r' = k
      · subst hk'
        simp [setRole, hk, lookupD_cons]
      · simp [setRole, hk, lookupD_cons, hk', ih]

theorem applyMembership_ok (p : Project) (role : String) (d : Int) (p' : Project)
    (h : applyMembership p role d = .ok p') :
    p'.positions_needed = p.positions_needed ∧
    p'.positions_filled =
      setRole p.positions_filled role (((filledOf p role : Int) + d).toNat) := by
  unfold applyMembership at h
  split at h
  · exact absurd h (by simp)
  · simp only [Except.ok.injEq] at h
    subst h
    exact ⟨rfl, rfl⟩

theorem capacity_applyMembership_guarded (p p' : Project) (role : String)
    (h : applyMembership p role 1 = .ok p') (hinv : CapacityInv p)
    (hg : filledOf p role < neededOf p role) : CapacityInv p' := by
  obtain ⟨hn, hf⟩ := applyMembership_ok p role 1 p' h
  intro r
  have hneed : neededOf p' r = neededOf p r := by
    unfold neededOf; rw [hn]
  rw [hneed]
  by_cases hr : r = role
  · subst hr
    have h1 : filledOf p' r = ((filledOf p r : Int) + 1).toNat := by
      show lookupD p'.positions_filled r = _
      rw [hf]
      exact lookupD_setRole_self _ _ _
    have h2 : filledOf p' r = filledOf p r + 1 := by omega
    omega
  · have h1 : filledOf p' r = filledOf p r := by
      show lookupD p'.positions_filled r = lookupD p.positions_filled r
      rw [hf]
      exact lookupD_setRole_other _ _ _ _ hr
    rw [h1]
    exact hinv r

theorem canAcceptApplication_iff (p : Project) (role : String) :
    canAcceptApplication p role = true ↔
      (p.status = .OPEN ∨ p.status = .IN_PROGRESS) ∧
        filledOf p role < neededOf p role := by
  unfold canAcceptApplication
  simp [Bool.or_eq_true, beq_iff_eq]

theorem acceptApp_ok (s : CoreState) (i : Nat) (s' : CoreState)
    (h : acceptApp s i = .ok s') :
    ∃ a, findApp s i = some a ∧ a.status = .PENDING ∧
      canAcceptApplication s.project a.applied_position = true ∧
      applyMembership s.project a.applied_position 1 = .ok s'.project ∧
      s'.apps = s.apps.map
        (fun b => if b.id = i then { b with status := .ACCEPTED } else b) ∧
      s'.members = s.members ++
        [{ user_id := a.user_id, role_in_project := a.applied_position }] ∧
      s'.nextId = s.nextId := by
  unfold acceptApp at h
  split at h
  · exact absurd h (by simp)
  · rename_i a hf
    split at h
    · split at h
      · split at h
        · exact absurd h (by simp)
        · rename_i p' hm
          simp only [Except.ok.injEq] at h
          subst h
          exact ⟨a, hf, by assumption, by assumption, hm, rfl, rfl, rfl⟩
      · exact absurd h (by simp)
    · exact absurd h (by simp)

theorem rejectApp_ok (s : CoreState) (i : Nat) (s' : CoreState)
    (h : rejectApp s i = .ok s') :
    ∃ a, findApp s i = some a ∧ a.status = .PENDING ∧
      s'.apps = s.apps.map
        (fun b => if b.id = i then { b with status := .REJECTED } else b) ∧
      s'.project = s.project ∧ s'.members = s.members ∧ s'.nextId = s.nextId := by
  unfold rejectApp at h
  split at h
  · exact absurd h (by simp)
  · rename_i a hf
    split at h
    · simp only [Except.ok.injEq] at h
      subst h
      exact ⟨a, hf, by assumption, rfl, rfl, rfl, rfl⟩
    · exact absurd h (by simp)

theorem submitApp_ok (s : CoreState) (u : UserGov) (uid role : String) (now : Nat)
    (s' : CoreState) (h : submitApp s u uid role now = .ok s') :
    hasPendingFor s uid = false ∧ isPenalized u now = false ∧
      s'.apps = s.apps ++
        [{ id := s.nextId, user_id := uid, applied_position := role,
           status := .PENDING }] ∧
      s'.project = s.project ∧ s'.members = s.members ∧
      s'.nextId = s.nextId + 1 := by
  unfold submitApp at h
  split at h
  · exact absurd h (by simp)
  · split at h
    · exact absurd h (by simp)
    · split at h
      · exact absurd h (by simp)
      · rename_i h1 h2 h3
        simp only [Except.ok.injEq] at h
        subst h
        exact ⟨by simpa using h1, by simpa using h2, rfl, rfl, rfl, rfl⟩

theorem acceptApp_closed_of_guard_false (s : CoreState) (i : Nat) (a : Application)
    (hf : findApp s i = some a) (hp : a.status = .PENDING)
    (hg : canAcceptApplication s.project a.applied_position = false) :
    acceptApp s i = .error .RecruitmentClosedForRole := by
  unfold acceptApp
  rw [hf]
  simp [hp, hg]

theorem acceptApp_finalized (s : CoreState) (i : Nat) (a : Application)
    (hf : findApp s i = some a) (hp : a.status ≠ .PENDING) :
    acceptApp s i = .error .AlreadyFinalized := by
  unfold acceptApp
  rw [hf]
  simp [hp]

theorem rejectApp_finalized (s : CoreState) (i : Nat) (a : Application)
    (hf : findApp s i = some a) (hp : a.status ≠ .PENDING) :
    rejectApp s i = .error .AlreadyFinalized := by
  unfold rejectApp
  rw [hf]
  simp [hp]

theorem submitApp_duplicate (s : CoreState) (u : UserGov) (uid role : String)
    (now : Nat) (h : hasPendingFor s uid = true) :
    submitApp s u uid role now = .error .DuplicatePending := by
  unfold submitApp
  simp [h]

theorem hasPendingFor_false_iff (s : CoreState) (uid : String) :
    hasPendingFor s uid = false ↔ pendingCount s uid = 0 := by
  unfold hasPendingFor pendingCount
  rw [List.countP_eq_zero, List.any_eq_false]

theorem pendingCount_map_flip_le (l : List Application) (i : Nat) (st : AppStatus)
    (hst : st ≠ .PENDING) (uid : String) :
    (l.map (fun b => if b.id = i then { b with status := st } else b)).countP
        (pendingFor uid) ≤ l.countP (pendingFor uid) := by
  rw [List.countP_map]
  apply List.countP_mono_left
  intro b _ hb
  by_cases hbi : b.id = i
  · exfalso
    simp only [Function.comp, hbi, if_pos] at hb
    unfold pendingFor at hb
    simp [beq_iff_eq, hst] at hb
  · simpa [Function.comp, hbi] using hb

theorem pending_unique_of_reachableFull (s : CoreState) (h : ReachableFull s) :
    PendingUnique s := by
  induction h with
  | init s hs =>
    intro uid
    unfold pendingCount
    rw [hs.2.1]
    simp
  | step s s' _ hstep ih =>
    cases hstep with
    | submit u uid role now _ _ heq =>
      obtain ⟨hdup, _, happs, _, _, _⟩ := submitApp_ok _ _ _ _ _ _ heq
      intro uid'
      unfold pendingCount
      rw [happs, List.countP_append]
      by_cases huid : uid' = uid
      · subst huid
        have h0 : pendingCount s uid' = 0 := (hasPendingFor_false_iff s uid').mp hdup
        unfold pendingCount at h0
        rw [h0, Nat.zero_add]
        refine le_trans (List.countP_le_length _) ?_
        simp
      · have hone : List.countP (pendingFor uid')
            [{ id := s.nextId, user_id := uid, applied_position := role,
               status := .PENDING }] = 0 := by
          have hne : (uid == uid') = false := beq_eq_false_iff_ne.mpr (Ne.symm huid)
          simp [List.countP, List.countP.go, pendingFor, hne]
        rw [hone]
        simpa using ih uid'
    | accept i _ _ heq =>
      obtain ⟨a, _, _, _, _, happs, _, _⟩ := acceptApp_ok _ _ _ heq
      intro uid
      unfold pendingCount
      rw [happs]
      exact le_trans (pendingCount_map_flip_le s.apps i .ACCEPTED (by simp) uid) (ih uid)
    | reject i _ _ heq =>
      obtain ⟨a, _, _, happs, _, _, _⟩ := rejectApp_ok _ _ _ heq
      intro uid
      unfold pendingCount
      rw [happs]
      exact le_trans (pendingCount_map_flip_le s.apps i .REJECTED (by simp) uid) (ih uid)
    | member role delta _ p' _ =>
      intro uid
      exact ih uid

theorem capacity_stepW (s s' : CoreState) (hstep : StepW s s')
    (hinv : CapacityInv s.project) : CapacityInv s'.project := by
  cases hstep with
  | submit u uid role now _ _ heq =>
    obtain ⟨_, _, _, hproj, _, _⟩ := submitApp_ok _ _ _ _ _ _ heq
    rw [hproj]
    exact hinv
  | accept i _ _ heq =>
    obtain ⟨a, _, _, hg, hm, _, _, _⟩ := acceptApp_ok _ _ _ heq
    have hlt := ((canAcceptApplication_iff s.project a.applied_position).mp hg).2
    exact capacity_applyMembership_guarded s.project s'.project a.applied_position hm hinv hlt
  | reject i _ _ heq =>
    obtain ⟨a, _, _, _, hproj, _, _⟩ := rejectApp_ok _ _ _ heq
    rw [hproj]
    exact hinv

theorem capacity_of_reachableW (s : CoreState) (h : ReachableW s) :
    CapacityInv s.project := by
  induction h with
  | init s hs =>
    intro r
    unfold filledOf
    rw [hs.1, lookupD_nil]
    exact Nat.zero_le _
  | step s s' _ hstep ih => exact capacity_stepW s s' hstep ih

theorem userReachable_zero_no_penalty (cfg : GovConfig) (u : UserGov)
    (h : UserReachable cfg u) (hc : u.no_show_count = 0) :
    u.penalty_until = none := by
  cases h with
  | init => rfl
  | step u' now _ => simp [recordNoShow] at hc

/-! ## The claims -/

/-- C1, counterexample: taking the spec's operation list literally — with raw
`applyMembership` available as a step alongside submit/accept/reject — a state
whose dev role holds 2 members against a need of 1 is reachable: two unguarded
`applyMembership(+1)` calls on a project needing one dev overfill it, because
`applyMembership` checks only `InvalidRole`, not capacity.  So the claim as
stated is false. -/
theorem C1_counterexample :
    ReachableFull { exInitState with project := cexProj2 } ∧ ¬ CapacityInv cexProj2 := by
  constructor
  · exact ReachableFull.step _ _
      (ReachableFull.step _ _ (ReachableFull.init exInitState ⟨rfl, rfl, rfl⟩)
        (StepFull.member "dev" 1 exInitState cexProj1 rfl))
      (StepFull.member "dev" 1 { exInitState with project := cexProj1 } cexProj2 rfl)
  · intro hinv
    have h := hinv "dev"
    have h2 : filledOf cexProj2 "dev" = 2 := rfl
    have h1 : neededOf cexProj2 "dev" = 1 := rfl
    omega

/-- C1, amended: every workflow transition (submit, accept, reject — with
`applyMembership` invoked only inside accept, under the `canAcceptApplication`
guard) preserves the capacity invariant `filled ≤ needed` for every role, and
every state reachable by those operations satisfies it. -/
theorem C1_capacity_invariant :
    (∀ s s' : CoreState, CapacityInv s.project → StepW s s' → CapacityInv s'.project) ∧
    (∀ s : CoreState, ReachableW s → CapacityInv s.project) :=
  ⟨fun s s' hinv hstep => capacity_stepW s s' hstep hinv,
   fun s h => capacity_of_reachableW s h⟩

/-- C1, witness: the state after alice applies and is accepted is reachable by
the workflow and satisfies the capacity invariant. -/
theorem C1_capacity_witness :
    ReachableW exOkState' ∧ CapacityInv exOkState'.project := by
  have hr : ReachableW exOkState' := by
    apply ReachableW.step _ _ ?_ (StepW.accept 0 exOkState exOkState' rfl)
    apply ReachableW.step _ _ (ReachableW.init exInitState ⟨rfl, rfl, rfl⟩)
      (StepW.submit ⟨0, none⟩ "alice" "dev" 0 exInitState exOkState rfl)
  exact ⟨hr, C1_capacity_invariant.2 exOkState' hr⟩

/-- C2: accepting a PENDING application is all-or-nothing.  On success the
application's status flips to ACCEPTED, exactly one Team-Membership is
appended, and the project is updated by `applyMembership(+1)` — all in the one
returned state; on any failure (including `RecruitmentClosedForRole`) the
transaction leaves the caller's state exactly unchanged. -/
theorem C2_accept_atomic (s : CoreState) (i : Nat) :
    (∀ s', acceptApp s i = .ok s' →
      ∃ a, findApp s i = some a ∧ a.status = .PENDING ∧
        s'.apps = s.apps.map
          (fun b => if b.id = i then { b with status := .ACCEPTED } else b) ∧
        s'.members = s.members ++
          [{ user_id := a.user_id, role_in_project := a.applied_position }] ∧
        s'.members.length = s.members.length + 1 ∧
        applyMembership s.project a.applied_position 1 = .ok s'.project) ∧
    (∀ e, acceptApp s i = .error e → acceptAppRun s i = (s, some e)) := by
  constructor
  · intro s' h
    obtain ⟨a, hf, hp, _, hm, happs, hmem, _⟩ := acceptApp_ok s i s' h
    refine ⟨a, hf, hp, happs, hmem, ?_, hm⟩
    rw [hmem]
    simp
  · intro e h
    unfold acceptAppRun
    rw [h]

/-- C2, witness: a concrete successful acceptance and a concrete denial
(closed project) exercising both branches of `C2_accept_atomic`. -/
theorem C2_accept_witness :
    (acceptApp exOkState 0 = .ok exOkState' ∧
      (∃ a, findApp exOkState 0 = some a ∧ a.status = .PENDING ∧
        exOkState'.apps = exOkState.apps.map
          (fun b => if b.id = 0 then { b with status := .ACCEPTED } else b) ∧
        exOkState'.members = exOkState.members ++
          [{ user_id := a.user_id, role_in_project := a.applied_position }] ∧
        exOkState'.members.length = exOkState.members.length + 1 ∧
        applyMembership exOkState.project a.applied_position 1 = .ok exOkState'.project)) ∧
    (acceptApp exClosedState 0 = .error .RecruitmentClosedForRole ∧
      acceptAppRun exClosedState 0 = (exClosedState, some .RecruitmentClosedForRole)) :=
  ⟨⟨rfl, (C2_accept_atomic exOkState 0).1 exOkState' rfl⟩,
   ⟨rfl, (C2_accept_atomic exClosedState 0).2 .RecruitmentClosedForRole rfl⟩⟩

/-- C3: `canAcceptApplication` is true iff the project status is OPEN or
IN_PROGRESS and the role is under capacity; accept re-evaluates this guard and
fails with `RecruitmentClosedForRole` when it is false; consequently a
successful accept only ever happens against an OPEN/IN_PROGRESS project with
the requested role under capacity. -/
theorem C3_accept_guard :
    (∀ (p : Project) (role : String),
      canAcceptApplication p role = true ↔
        (p.status = .OPEN ∨ p.status = .IN_PROGRESS) ∧
          filledOf p role < neededOf p role) ∧
    (∀ (s : CoreState) (i : Nat) (a : Application), findApp s i = some a →
      a.status = .PENDING →
      canAcceptApplication s.project a.applied_position = false →
      acceptApp s i = .error .RecruitmentClosedForRole) ∧
    (∀ (s : CoreState) (i : Nat) (s' : CoreState), acceptApp s i = .ok s' →
      ∃ a, findApp s i = some a ∧
        (s.project.status = .OPEN ∨ s.project.status = .IN_PROGRESS) ∧
        filledOf s.project a.applied_position < neededOf s.project a.applied_position) := by
  refine ⟨canAcceptApplication_iff, acceptApp_closed_of_guard_false, ?_⟩
  intro s i s' h
  obtain ⟨a, hf, _, hg, _⟩ := acceptApp_ok s i s' h
  have hc := (canAcceptApplication_iff s.project a.applied_position).mp hg
  exact ⟨a, hf, hc.1, hc.2⟩

/-- C3, witness: the guard holds on the open one-dev project, and accept on
the closed project is denied with `RecruitmentClosedForRole`. -/
theorem C3_accept_guard_witness :
    ((cexProj.status = .OPEN ∨ cexProj.status = .IN_PROGRESS) ∧
      filledOf cexProj "dev" < neededOf cexProj "dev") ∧
    acceptApp exClosedState 0 = .error .RecruitmentClosedForRole :=
  ⟨(C3_accept_guard.1 cexProj "dev").mp rfl,
   C3_accept_guard.2.1 exClosedState 0
     { id := 0, user_id := "alice", applied_position := "dev", status := .PENDING }
     rfl rfl rfl⟩

/-- C4: `tryConsume` allows and increments exactly when `count < limit`,
otherwise denies and leaves the counter unchanged; a count at most the limit
stays at most the limit; and with limit 3, four consecutive calls from count 0
give allowed, allowed, allowed, denied with the final count 3, not 4. -/
theorem C4_tryConsume_spec :
    (∀ (c : UsageCounter) (limit now : Nat), c.count < limit →
        tryConsume c limit now = (true, { count := c.count + 1 })) ∧
    (∀ (c : UsageCounter) (limit now : Nat), ¬ c.count < limit →
        tryConsume c limit now = (false, c)) ∧
    (∀ (c : UsageCounter) (limit now : Nat), c.count ≤ limit →
        (tryConsume c limit now).2.count ≤ limit) ∧
    ((tryConsume { count := 0 } 3 0).1 = true ∧
     (tryConsume (tryConsume { count := 0 } 3 0).2 3 0).1 = true ∧
     (tryConsume (tryConsume (tryConsume { count := 0 } 3 0).2 3 0).2 3 0).1 = true ∧
     (tryConsume (tryConsume (tryConsume (tryConsume
        { count := 0 } 3 0).2 3 0).2 3 0).2 3 0).1 = false ∧
     (tryConsume (tryConsume (tryConsume (tryConsume
        { count := 0 } 3 0).2 3 0).2 3 0).2 3 0).2.count = 3) := by
  refine ⟨?_, ?_, ?_, by decide⟩
  · intro c limit now h
    unfold tryConsume
    rw [if_pos h]
  · intro c limit now h
    unfold tryConsume
    rw [if_neg h]
  · intro c limit now h
    unfold tryConsume
    by_cases hc : c.count < limit
    · rw [if_pos hc]
      exact hc
    · rw [if_neg hc]
      exact h

/-- C4, witness: the three quantified parts of `C4_tryConsume_spec`
instantiated at concrete counters against limit 3. -/
theorem C4_tryConsume_witness :
    ((0 : Nat) < 3 ∧ tryConsume { count := 0 } 3 0 = (true, { count := 1 })) ∧
    (¬ (3 : Nat) < 3 ∧ tryConsume { count := 3 } 3 0 = (false, { count := 3 })) ∧
    ((3 : Nat) ≤ 3 ∧ (tryConsume { count := 3 } 3 0).2.count ≤ 3) :=
  ⟨⟨by decide, C4_tryConsume_spec.1 { count := 0 } 3 0 (by decide)⟩,
   ⟨by decide, C4_tryConsume_spec.2.1 { count := 3 } 3 0 (by decide)⟩,
   ⟨by decide, C4_tryConsume_spec.2.2.1 { count := 3 } 3 0 (by decide)⟩⟩

/-- C5: `recordNoShow` increments `no_show_count` by exactly one and sets
`penalty_until = now + penalty_duration` exactly when the new count is a
multiple of the threshold (otherwise `penalty_until` is untouched);
`isPenalized` is true iff `penalty_until` is present and `now` is strictly
before it; a reachable user with zero no-shows is never penalized; and a
penalty expires with no explicit transition once `now` reaches
`penalty_until`. -/
theorem C5_penalty_ledger :
    (∀ (cfg : GovConfig) (u : UserGov) (now : Nat),
        (recordNoShow cfg u now).no_show_count = u.no_show_count + 1 ∧
        ((u.no_show_count + 1) % cfg.noShowThreshold = 0 →
          (recordNoShow cfg u now).penalty_until = some (now + cfg.penaltyDuration)) ∧
        ((u.no_show_count + 1) % cfg.noShowThreshold ≠ 0 →
          (recordNoShow cfg u now).penalty_until = u.penalty_until)) ∧
    (∀ (u : UserGov) (now : Nat),
        isPenalized u now = true ↔ ∃ t, u.penalty_until = some t ∧ now < t) ∧
    (∀ (cfg : GovConfig) (u : UserGov) (now : Nat),
        UserReachable cfg u → u.no_show_count = 0 → isPenalized u now = false) ∧
    (∀ (u : UserGov) (now t : Nat), u.penalty_until = some t → t ≤ now →
        isPenalized u now = false) := by
  refine ⟨?_, ?_, ?_, ?_⟩
  · intro cfg u now
    refine ⟨rfl, ?_, ?_⟩
    · intro h
      unfold recordNoShow
      simp only [h, if_pos]
    · intro h
      unfold recordNoShow
      simp [h]
  · intro u now
    unfold isPenalized
    cases hpu : u.penalty_until with
    | none => simp
    | some t => simp
  · intro cfg u now hr hc
    have hn := userReachable_zero_no_penalty cfg u hr hc
    unfold isPenalized
    rw [hn]
  · intro u now t h hle
    unfold isPenalized
    rw [h]
    simp
    omega

/-- C5, witness: with threshold 3, duration 30, the third no-show at day 0
penalizes until day 30; a fresh user is unpenalized; at day 31 the penalty has
expired. -/
theorem C5_penalty_witness :
    ((2 + 1) % 3 = 0 ∧
      (recordNoShow { noShowThreshold := 3, penaltyDuration := 30 }
        { no_show_count := 2, penalty_until := none } 0).penalty_until = some 30) ∧
    (UserReachable { noShowThreshold := 3, penaltyDuration := 30 }
        { no_show_count := 0, penalty_until := none } ∧
      isPenalized { no_show_count := 0, penalty_until := none } 15 = false) ∧
    ((30 : Nat) ≤ 31 ∧ isPenalized { no_show_count := 3, penalty_until := some 30 } 31 = false) :=
  ⟨⟨by decide,
    (C5_penalty_ledger.1 { noShowThreshold := 3, penaltyDuration := 30 }
      { no_show_count := 2, penalty_until := none } 0).2.1 (by decide)⟩,
   ⟨UserReachable.init,
    C5_penalty_ledger.2.2.1 { noShowThreshold := 3, penaltyDuration := 30 }
      { no_show_count := 0, penalty_until := none } 15 UserReachable.init rfl⟩,
   ⟨by decide,
    C5_penalty_ledger.2.2.2 { no_show_count := 3, penalty_until := some 30 } 31 30 rfl
      (by decide)⟩⟩

/-- C6: submitting while a PENDING application exists for the same
(project, user) always fails with `DuplicatePending` (so nothing is created),
and every state reachable by the core's operations has at most one PENDING
application per user of the project. -/
theorem C6_pending_unique :
    (∀ (s : CoreState) (u : UserGov) (uid role : String) (now : Nat),
        hasPendingFor s uid = true →
        submitApp s u uid role now = .error .DuplicatePending) ∧
    (∀ s : CoreState, ReachableFull s → PendingUnique s) :=
  ⟨fun s u uid role now h => submitApp_duplicate s u uid role now h,
   fun s h => pending_unique_of_reachableFull s h⟩

/-- C6, witness: alice's second submit while her first application is pending
is denied with `DuplicatePending`, and the reachable state with her pending
application satisfies pending-uniqueness. -/
theorem C6_pending_witness :
    hasPendingFor exOkState "alice" = true ∧
    submitApp exOkState { no_show_count := 0, penalty_until := none }
      "alice" "dev" 0 = .error .DuplicatePending ∧
    ReachableFull exOkState ∧ PendingUnique exOkState := by
  have hr : ReachableFull exOkState :=
    ReachableFull.step _ _ (ReachableFull.init exInitState ⟨rfl, rfl, rfl⟩)
      (StepFull.submit ⟨0, none⟩ "alice" "dev" 0 exInitState exOkState rfl)
  exact ⟨rfl,
    C6_pending_unique.1 exOkState ⟨0, none⟩ "alice" "dev" 0 rfl,
    hr, C6_pending_unique.2 exOkState hr⟩

/-- C7: ACCEPTED and REJECTED are terminal — for an application in either
state, both accept and reject fail with `AlreadyFinalized`, and the caller's
state (hence the application record) is left exactly unchanged.  Neither
operation takes the acting user as an input, so the outcome is the same for
every actor. -/
theorem C7_terminal_finalized :
    ∀ (s : CoreState) (i : Nat) (a : Application), findApp s i = some a →
      (a.status = .ACCEPTED ∨ a.status = .REJECTED) →
      acceptApp s i = .error .AlreadyFinalized ∧
      rejectApp s i = .error .AlreadyFinalized ∧
      acceptAppRun s i = (s, some .AlreadyFinalized) ∧
      rejectAppRun s i = (s, some .AlreadyFinalized) := by
  intro s i a hf hst
  have hp : a.status ≠ .PENDING := by
    cases hst with
    | inl h => rw [h]; simp
    | inr h => rw [h]; simp
  have h1 := acceptApp_finalized s i a hf hp
  have h2 := rejectApp_finalized s i a hf hp
  refine ⟨h1, h2, ?_, ?_⟩
  · unfold acceptAppRun
    rw [h1]
  · unfold rejectAppRun
    rw [h2]

/-- C7, witness: on the state whose only application is already ACCEPTED,
both transition attempts are denied with `AlreadyFinalized` and the state is
returned unchanged. -/
theorem C7_terminal_witness :
    findApp exDoneState 0 = some
      { id := 0, user_id := "alice", applied_position := "dev", status := .ACCEPTED } ∧
    acceptApp exDoneState 0 = .error .AlreadyFinalized ∧
    rejectApp exDoneState 0 = .error .AlreadyFinalized ∧
    acceptAppRun exDoneState 0 = (exDoneState, some .AlreadyFinalized) :=
  ⟨rfl,
   (C7_terminal_finalized exDoneState 0
     { id := 0, user_id := "alice", applied_position := "dev", status := .ACCEPTED }
     rfl (Or.inl rfl)).1,
   (C7_terminal_finalized exDoneState 0
     { id := 0, user_id := "alice", applied_position := "dev", status := .ACCEPTED }
     rfl (Or.inl rfl)).2.1,
   (C7_terminal_finalized exDoneState 0
     { id := 0, user_id := "alice", applied_position := "dev", status := .ACCEPTED }
     rfl (Or.inl rfl)).2.2.1⟩

/-- C8: each Governance Facade method is a pure, deterministic function of the
snapshots and the logical `now` passed in.  Each method receives the full
ambient world — system clock included — as an explicit argument, and its result
is identical across arbitrary ambient worlds, so no system clock or other
external input influences the outcome; the argument snapshots, being values,
are never mutated. -/
theorem C8_facade_deterministic :
    ∀ (amb amb' : Ambient) (u : UserGov) (s : CoreState) (uid role : String)
      (now i : Nat) (c : UsageCounter) (limit : Nat),
      canApply amb u s uid role now = canApply amb' u s uid role now ∧
      canAccept amb s i now = canAccept amb' s i now ∧
      canUseFeature amb c limit now = canUseFeature amb' c limit now :=
  fun _ _ _ _ _ _ _ _ _ _ => ⟨rfl, rfl, rfl⟩

/-- C9: the registration payload built by `onSubmit` carries `tech_stack` and
`preferred_positions` equal to the comma-split, piecewise-trimmed input
strings — the empty list when the input is absent or empty — and the
`confirmPassword` field never influences (is removed from) the submitted
payload. -/
theorem C9_register_payload :
    ∀ d : RegisterFormData,
      (buildRegisterData d).tech_stack =
        (match d.tech_stack with
          | none => []
          | some str => if str = "" then [] else (str.splitOn ",").map (fun x => x.trim)) ∧
      (buildRegisterData d).preferred_positions =
        (match d.preferred_positions with
          | none => []
          | some str => if str = "" then [] else (str.splitOn ",").map (fun x => x.trim)) ∧
      (∀ cp : String, buildRegisterData { d with confirmPassword := cp } = buildRegisterData d) :=
  fun _ => ⟨rfl, rfl, fun _ => rfl⟩

/-- C10: logout resets the in-memory user and token to none, removes exactly
the `access_token`, `refresh_token` and `user` keys from localStorage, and
leaves every other stored key untouched, regardless of the prior
authentication state. -/
theorem C10_logout_effects :
    ∀ (a : AuthContextState) (st : Storage),
      (logout a st).1.user = none ∧
      (logout a st).1.token = none ∧
      (logout a st).2 "access_token" = none ∧
      (logout a st).2 "refresh_token" = none ∧
      (logout a st).2 "user" = none ∧
      (∀ k : String, k ≠ "access_token" → k ≠ "refresh_token" → k ≠ "user" →
        (logout a st).2 k = st k) := by
  intro a st
  refine ⟨rfl, rfl, rfl, rfl, rfl, ?_⟩
  intro k h1 h2 h3
  show removeItem (removeItem (removeItem st "access_token") "refresh_token") "user" k = st k
  unfold removeItem
  simp [h1, h2, h3]

/-- C10, witness: a storage holding a `theme` key keeps it across logout. -/
theorem C10_logout_witness :
    ("theme" : String) ≠ "access_token" ∧ ("theme" : String) ≠ "refresh_token" ∧
    ("theme" : String) ≠ "user" ∧
    (logout { user := some { id := "1", email := "a@b.c", name := "alice" }, token := some "tok" }
        (fun k => if k = "theme" then some "dark" else none)).2 "theme" =
      (fun k : String => if k = "theme" then some "dark" else none) "theme" :=
  ⟨by decide, by decide, by decide,
   (C10_logout_effects
     { user := some { id := "1", email := "a@b.c", name := "alice" }, token := some "tok" }
     (fun k => if k = "theme" then some "dark" else none)).2.2.2.2.2 "theme"
     (by decide) (by decide) (by decide)⟩
